import Mathlib

/-!
# Memory game (COMP4537 lab 0): the button controller

A shallow embedding of `js/script.js` and `lang/messages/en/user.js`.

* `Button` is the source class `Button`; the DOM element it owns is flattened
  into the fields the program reads or writes (`textContent`, `style.top`,
  `style.left`, `onclick`).
* `GameManager` is the source class `GameManager`.
* `World` adds what the browser owns: the table of pending timers and the
  counter from which `setTimeout` / `setInterval` draw their handles.
* `alert(msg)` is modelled by returning the list of messages shown.
* `Math.random()` is modelled by explicit draws handed to the operation that
  consumes them; a draw is a rational number, as every double is.
-/

namespace MemoryGame

/-! ## lang/messages/en/user.js -/

namespace MESSAGES

def invalidInput : String := "Please enter a number between 3 and 7"
def correctAnswer : String := "Excellent memory!"
def incorrectAnswer : String := "Wrong order!"

end MESSAGES

/-! ## The built-in `parseInt` (ECMAScript, radix argument absent) -/

/-- White space and line terminators skipped at the start of the text. -/
def isStrWhiteSpaceChar (c : Char) : Bool :=
  [0x9, 0xA, 0xB, 0xC, 0xD, 0x20, 0xA0, 0x1680, 0x2000, 0x2001, 0x2002, 0x2003,
   0x2004, 0x2005, 0x2006, 0x2007, 0x2008, 0x2009, 0x200A, 0x2028, 0x2029,
   0x202F, 0x205F, 0x3000, 0xFEFF].contains c.toNat

/-- Value of a character read as a digit (`0-9`, `a-z`, `A-Z`). -/
def digitValue (c : Char) : Option Nat :=
  let k := c.toNat
  if 48 ≤ k ∧ k ≤ 57 then some (k - 48)
  else if 97 ≤ k ∧ k ≤ 122 then some (k - 87)
  else if 65 ≤ k ∧ k ≤ 90 then some (k - 55)
  else none

/-- Whether `c` is a digit of radix `R`. -/
def radixDigit (R : Nat) (c : Char) : Bool :=
  match digitValue c with
  | some d => decide (d < R)
  | none => false

/-- Integer denoted by a run of radix-`R` digits. -/
def digitsValue (R : Nat) (Z : List Char) : Nat :=
  Z.foldl (fun acc c => acc * R + (digitValue c).getD 0) 0

/-- The built-in `parseInt(string)`: skip leading white space, read an optional
sign, an optional `0x` / `0X` marker (which selects radix 16), then the longest
run of digits; what follows the run is ignored.  `none` is `NaN`.

The source compares the result only with `3` and `7` and stores it only when
it lies in between, so the rounding of very long digit runs to a double is
immaterial here and the exact integer is returned. -/
def parseInt (s : String) : Option Int :=
  let S := s.toList.dropWhile isStrWhiteSpaceChar
  let sign : Int := if S.head? = some '-' then -1 else 1
  let S1 := if S.head? = some '+' ∨ S.head? = some '-' then S.tail else S
  let hex : Bool := decide (S1.take 2 = ['0', 'x'] ∨ S1.take 2 = ['0', 'X'])
  let R : Nat := if hex then 16 else 10
  let S2 := if hex then S1.drop 2 else S1
  let Z := S2.takeWhile (radixDigit R)
  if Z.isEmpty then none else some (sign * (digitsValue R Z : Int))

/-! ## class Button -/

/-- The source class `Button` together with the parts of its DOM element that
the program touches.  `onclick = true` means `element.onclick` holds the
closure `() => this.handleButtonClick(button)`; `false` means `null`. -/
structure Button where
  order : Nat
  colour : String
  textContent : String
  top : Option Int
  left : Option Int
  onclick : Bool
  deriving DecidableEq

/-- What `moveRandomly` takes from its surroundings: the container's
`clientWidth`/`clientHeight` and the button element's `offsetWidth`/`offsetHeight`
(whole pixels), and `round`, which sends the exact value of a product to the
double that the operator `*` returns for it. -/
structure Layout where
  clientWidth : Int
  clientHeight : Int
  offsetWidth : Int
  offsetHeight : Int
  round : ℚ → ℚ

namespace Button

/-- Source: `setLabel(text)`. -/
def setLabel (b : Button) (text : String) : Button :=
  { b with textContent := text }

/-- Source: `setLocation(top, left)`. -/
def setLocation (b : Button) (top left : Int) : Button :=
  { b with top := some top, left := some left }

/-- Source: `constructor(order, colour)`; the label is `order + 1` rendered as
text, no position yet, no click handler. -/
def create (order : Nat) (colour : String) : Button :=
  setLabel
    { order := order, colour := colour, textContent := "", top := none,
      left := none, onclick := false }
    (toString (order + 1))

/-- Source: `moveRandomly()`.  `r1` and `r2` are the two values returned by
`Math.random()`, in call order. -/
def moveRandomly (L : Layout) (r1 r2 : ℚ) (b : Button) : Button :=
  let maxWidth := L.clientWidth - L.offsetWidth
  let maxHeight := L.clientHeight - L.offsetHeight
  let randomTop : Int := ⌊L.round (r1 * (maxHeight : ℚ))⌋
  let randomLeft : Int := ⌊L.round (r2 * (maxWidth : ℚ))⌋
  b.setLocation randomTop randomLeft

end Button

/-! ## Timers and the controller -/

/-- A pending browser timer.  `timeout` is the callback armed by `startGame`;
`interval` is the callback armed by `scrambleButtons`, whose closure variable
`count` is kept with it. -/
inductive Timer where
  | timeout (delay : Int)
  | interval (delay : Int) (count : Nat)
  deriving DecidableEq

/-- The source class `GameManager`; a timer field is `none` for `null` and
`some id` for a handle. -/
structure GameManager where
  buttons : List Button
  clickCount : Nat
  n : Int
  pauseTimeout : Option Nat
  scrambleInterval : Option Nat
  deriving DecidableEq

/-- The controller and the browser's timer table.  The buttons in
`gm.buttons` are exactly the button elements attached to the game container:
the constructor attaches each one, `resetGame` detaches each one. -/
structure World where
  gm : GameManager
  timers : List (Nat × Timer)
  nextId : Nat
  deriving DecidableEq

/-- Source: `new GameManager()` in a fresh page; timer handles start at 1. -/
def World.init : World :=
  { gm := { buttons := [], clickCount := 0, n := 0, pauseTimeout := none,
            scrambleInterval := none },
    timers := [], nextId := 1 }

/-- JavaScript truthiness of a timer field: `null` and `0` are falsy. -/
def truthy (h : Option Nat) : Bool :=
  match h with
  | some id => decide (id ≠ 0)
  | none => false

/-- Built-ins `clearTimeout(h)` / `clearInterval(h)` on the timer table. -/
def clearTimer (h : Option Nat) (ts : List (Nat × Timer)) : List (Nat × Timer) :=
  match h with
  | some id => ts.filter (fun t => decide (t.1 ≠ id))
  | none => ts

/-- Built-ins `setTimeout` / `setInterval`: add a timer under a fresh handle. -/
def World.arm (w : World) (t : Timer) : World × Nat :=
  ({ w with timers := w.timers ++ [(w.nextId, t)], nextId := w.nextId + 1 }, w.nextId)

/-- Source: `resetGame()`. -/
def resetGame (w : World) : World :=
  let w1 :=
    if truthy w.gm.pauseTimeout then
      { w with timers := clearTimer w.gm.pauseTimeout w.timers,
               gm := { w.gm with pauseTimeout := none } }
    else w
  let w2 :=
    if truthy w1.gm.scrambleInterval then
      { w1 with timers := clearTimer w1.gm.scrambleInterval w1.timers,
                gm := { w1.gm with scrambleInterval := none } }
    else w1
  { w2 with gm := { w2.gm with buttons := [], clickCount := 0 } }

/-- The colour text built in `createButtons`: `#` followed by `k` in base 16,
where `k` is the value of `Math.floor(Math.random()*16777215)`. -/
def randomColour (k : Nat) : String :=
  "#" ++ String.mk (Nat.toDigits 16 k)

/-- Source: `createButtons()`; `colours i` is the value of
`Math.floor(Math.random()*16777215)` in iteration `i`. -/
def createButtons (colours : Nat → Nat) (w : World) : World :=
  { w with gm := { w.gm with
      buttons := w.gm.buttons ++ (List.range w.gm.n.toNat).map (fun i =>
        (Button.create i (randomColour (colours i))).setLocation 10 ((i : Int) * 170)) } }

/-- Source: `scrambleButtons()`: arm the repeating timer, its closure variable
`count` starting at 0. -/
def scrambleButtons (w : World) : World :=
  let (w1, id) := w.arm (Timer.interval 2000 0)
  { w1 with gm := { w1.gm with scrambleInterval := some id } }

/-- Source: `enableUserInteraction()`. -/
def enableUserInteraction (w : World) : World :=
  { w with gm := { w.gm with
      buttons := w.gm.buttons.map (fun b => { b.setLabel "" with onclick := true }) } }

/-- Source: `revealAllButtons()`. -/
def revealAllButtons (w : World) : World :=
  { w with gm := { w.gm with
      buttons := w.gm.buttons.map (fun b => b.setLabel (toString (b.order + 1))) } }

/-- Source: `disableButtons()`. -/
def disableButtons (w : World) : World :=
  { w with gm := { w.gm with
      buttons := w.gm.buttons.map (fun b => { b with onclick := false }) } }

/-- Source: `startGame()`.  `value` is `this.input.value`, the text in the count
field; the second component lists the alerts shown. -/
def startGame (w : World) (value : String) (colours : Nat → Nat) : World × List String :=
  match parseInt value with
  | none => (w, [MESSAGES.invalidInput])
  | some v =>
    if v < 3 ∨ v > 7 then (w, [MESSAGES.invalidInput])
    else
      let w1 := { w with gm := { w.gm with n := v } }
      let w2 := resetGame w1
      let w3 := createButtons colours w2
      let (w4, id) := w3.arm (Timer.timeout (w3.gm.n * 1000))
      ({ w4 with gm := { w4.gm with pauseTimeout := some id } }, [])

/-- Source: `handleButtonClick(clickedButton)`, where `clickedButton` is the
button at position `i` of `this.buttons`. -/
def handleButtonClick (w : World) (i : Nat) (clickedButton : Button) : World × List String :=
  if clickedButton.order = w.gm.clickCount then
    let w1 := { w with gm := { w.gm with
      buttons := w.gm.buttons.set i (clickedButton.setLabel (toString (clickedButton.order + 1))),
      clickCount := w.gm.clickCount + 1 } }
    if (w1.gm.clickCount : Int) = w1.gm.n then
      (disableButtons w1, [MESSAGES.correctAnswer])
    else (w1, [])
  else
    (disableButtons (revealAllButtons w), [MESSAGES.incorrectAnswer])

/-- A user click on the button at position `i`: runs the button's `onclick`
handler when one is attached, and nothing otherwise. -/
def click (w : World) (i : Nat) : World × List String :=
  match w.gm.buttons[i]? with
  | none => (w, [])
  | some b => if b.onclick then handleButtonClick w i b else (w, [])

/-- The loop `this.buttons.forEach(button => button.moveRandomly())`; the button
at position `i` consumes the pair of draws `draws i`. -/
def moveEach (L : Layout) (draws : Nat → ℚ × ℚ) : Nat → List Button → List Button
  | _, [] => []
  | i, b :: bs => b.moveRandomly L (draws i).1 (draws i).2 :: moveEach L draws (i + 1) bs

/-- The callback of the repeating timer armed in `scrambleButtons`, run for the
pending timer `id` whose closure holds `count`. -/
def scrambleTick (w : World) (id : Nat) (delay : Int) (count : Nat) (L : Layout)
    (draws : Nat → ℚ × ℚ) : World :=
  let w1 := { w with gm := { w.gm with buttons := moveEach L draws 0 w.gm.buttons } }
  let count1 := count + 1
  let w2 := { w1 with timers := w1.timers.map (fun t =>
    if t.1 = id then (id, Timer.interval delay count1) else t) }
  if count1 ≥ 3 then
    let w3 := { w2 with timers := clearTimer w2.gm.scrambleInterval w2.timers }
    let w4 := { w3 with gm := { w3.gm with scrambleInterval := none } }
    enableUserInteraction w4
  else w2

/-- The browser runs the pending timer `id`.  A one-shot timer leaves the table
before its callback (`scrambleButtons(); pauseTimeout = null`) runs; a handle
that is not pending cannot fire. -/
def fire (w : World) (id : Nat) (L : Layout) (draws : Nat → ℚ × ℚ) : World :=
  match w.timers.lookup id with
  | none => w
  | some (Timer.timeout _) =>
    let w1 := { w with timers := clearTimer (some id) w.timers }
    let w2 := scrambleButtons w1
    { w2 with gm := { w2.gm with pauseTimeout := none } }
  | some (Timer.interval delay count) => scrambleTick w id delay count L draws

/-- What can happen to the page: the Go button is pressed with `value` in the
count field, a pending timer fires, or a button is clicked. -/
inductive Event where
  | go (value : String) (colours : Nat → Nat)
  | timer (id : Nat) (L : Layout) (draws : Nat → ℚ × ℚ)
  | click (i : Nat)

/-- One event: the next world and the alerts shown. -/
def step (w : World) : Event → World × List String
  | Event.go value colours => startGame w value colours
  | Event.timer id L draws => (fire w id L draws, [])
  | Event.click i => click w i

/-- Worlds reachable from a fresh page by any sequence of events. -/
inductive Reachable : World → Prop where
  | init : Reachable World.init
  | step {w : World} (e : Event) : Reachable w → Reachable (step w e).1

/-- A run of clicks, left to right, with the alerts shown along the way. -/
def clicks (w : World) : List Nat → World × List String
  | [] => (w, [])
  | i :: is =>
    let r := click w i
    let r2 := clicks r.1 is
    (r2.1, r.2 ++ r2.2)

/-- Repeated firing of timer `id`; tick `t` sees layout `L t` and draws `draws t`. -/
def ticks (w : World) (id : Nat) (L : Nat → Layout) (draws : Nat → Nat → ℚ × ℚ) : Nat → World
  | 0 => w
  | t + 1 => fire (ticks w id L draws t) id (L t) (draws t)

/-! ## Derived notions used by the statements -/

/-- The count field is accepted by `startGame`: `parseInt` yields a number that
passes the range test. -/
def accepts (value : String) : Bool :=
  match parseInt value with
  | some v => decide (3 ≤ v ∧ v ≤ 7)
  | none => false

/-- The buttons `createButtons` appends when `this.n = n`. -/
def freshButtons (colours : Nat → Nat) (n : Nat) : List Button :=
  (List.range n).map (fun i =>
    (Button.create i (randomColour (colours i))).setLocation 10 ((i : Int) * 170))

/-- The timer table holds nothing, or the one delay whose handle is in
`pauseTimeout`, or the one repeating timer whose handle is in
`scrambleInterval` and which has ticked fewer than 3 times. -/
def TimersOk (w : World) : Prop :=
  w.timers = [] ∨
  (∃ id d, id ≠ 0 ∧ w.timers = [(id, Timer.timeout d)] ∧ w.gm.pauseTimeout = some id) ∨
  (∃ id c, id ≠ 0 ∧ c < 3 ∧ w.timers = [(id, Timer.interval 2000 c)] ∧
    w.gm.scrambleInterval = some id)

/-- What every reachable world satisfies. -/
structure Inv (w : World) : Prop where
  nextId_ne : w.nextId ≠ 0
  timersOk : TimersOk w
  count_le : (w.gm.clickCount : Int) ≤ w.gm.n
  order_lt : ∀ b ∈ w.gm.buttons, (b.order : Int) < w.gm.n
  quiet : w.timers ≠ [] → w.gm.clickCount = 0 ∧ ∀ b ∈ w.gm.buttons, b.onclick = false
  live : ∀ b ∈ w.gm.buttons, b.onclick = true →
    (w.gm.clickCount : Int) < w.gm.n ∧ w.timers = []
  fresh : ∀ t ∈ w.timers, t.1 < w.nextId
  len : (w.gm.buttons.length : Int) = w.gm.n

/-- The state on entry to the input phase of a round of `n` buttons: no timer
pending, the buttons in ascending order `0 .. n-1`, every label blank, every
button with its click handler, no click counted yet. -/
def AwaitingInput (w : World) (n : Nat) : Prop :=
  w.gm.n = (n : Int) ∧ w.gm.clickCount = 0 ∧ w.timers = [] ∧
  w.gm.buttons.map Button.order = List.range n ∧
  ∀ b ∈ w.gm.buttons, b.onclick = true ∧ b.textContent = ""

/-- The input phase after `k` correct clicks. -/
def Playing (w : World) (n k : Nat) : Prop :=
  w.gm.n = (n : Int) ∧ w.gm.clickCount = k ∧
  w.gm.buttons.map Button.order = List.range n ∧
  ∀ b ∈ w.gm.buttons, b.onclick = true

/-- The round is over: no button carries a click handler. -/
def Resolved (w : World) : Prop :=
  ∀ b ∈ w.gm.buttons, b.onclick = false

instance (w : World) (n : Nat) : Decidable (AwaitingInput w n) := by
  unfold AwaitingInput; infer_instance

instance (w : World) (n k : Nat) : Decidable (Playing w n k) := by
  unfold Playing; infer_instance

instance (w : World) : Decidable (Resolved w) := by
  unfold Resolved; infer_instance

/-- The world after a correct click on the button `b` at position `i`, before
the end-of-round test. -/
def afterCorrect (w : World) (i : Nat) (b : Button) : World :=
  { w with gm := { w.gm with
      buttons := w.gm.buttons.set i (b.setLabel (toString (b.order + 1))),
      clickCount := w.gm.clickCount + 1 } }

/-- The repeating timer `id` of a round of `n` buttons is pending and has ticked
`t` times: labels still show, no button takes clicks. -/
def Scrambling (w : World) (n id t : Nat) : Prop :=
  w.gm.n = (n : Int) ∧ w.gm.clickCount = 0 ∧
  w.timers = [(id, Timer.interval 2000 t)] ∧ w.gm.scrambleInterval = some id ∧
  w.gm.buttons.map Button.order = List.range n ∧
  ∀ b ∈ w.gm.buttons, b.onclick = false ∧ b.textContent = toString (b.order + 1)

instance (w : World) (n id t : Nat) : Decidable (Scrambling w n id t) := by
  unfold Scrambling; infer_instance

/-- The world after `startGame`, the firing of the delay it armed (handle
`w.nextId`) and `t` firings of the repeating timer armed by the delay (handle
`w.nextId + 1`). -/
def scrambleRun (w : World) (value : String) (colours : Nat → Nat) (L0 : Layout)
    (d0 : Nat → ℚ × ℚ) (L : Nat → Layout) (draws : Nat → Nat → ℚ × ℚ) (t : Nat) : World :=
  ticks (fire (startGame w value colours).1 w.nextId L0 d0) (w.nextId + 1) L draws t

/-- Whether a pending timer is the one-shot delay. -/
def Timer.isTimeout : Timer → Bool
  | Timer.timeout _ => true
  | Timer.interval _ _ => false

/-- Whether a pending timer is the repeating relocation timer. -/
def Timer.isInterval : Timer → Bool
  | Timer.timeout _ => false
  | Timer.interval _ _ => true

/-- A container of 800 by 600 pixels holding buttons of 160 by 80 pixels, with
products taken exactly. -/
def sampleLayout : Layout :=
  { clientWidth := 800, clientHeight := 600, offsetWidth := 160, offsetHeight := 80,
    round := fun x => x }

/-- A fresh page after Go with `3` in the count field, the delay and three
relocation ticks (every random draw equal to 0). -/
def sampleAwaiting : World :=
  scrambleRun World.init "3" (fun _ => 0) sampleLayout (fun _ => (0, 0))
    (fun _ => sampleLayout) (fun _ _ => (0, 0)) 3

/-- A fresh page after Go with `4` in the count field, the delay and one
relocation tick: the repeating timer of that round is still pending. -/
def sampleScrambling : World :=
  scrambleRun World.init "4" (fun _ => 0) sampleLayout (fun _ => (0, 0))
    (fun _ => sampleLayout) (fun _ _ => (0, 0)) 1

/-! ## Basic facts about the operations -/

theorem startGame_reject_nan (w : World) (value : String) (colours : Nat → Nat)
    (h : parseInt value = none) :
    startGame w value colours = (w, [MESSAGES.invalidInput]) := by
  simp [startGame, h]

theorem startGame_reject_range (w : World) (value : String) (colours : Nat → Nat) (v : Int)
    (h : parseInt value = some v) (hv : v < 3 ∨ v > 7) :
    startGame w value colours = (w, [MESSAGES.invalidInput]) := by
  simp [startGame, h, hv]

theorem startGame_accept (w : World) (value : String) (colours : Nat → Nat) (v : Int)
    (h : parseInt value = some v) (h3 : 3 ≤ v) (h7 : v ≤ 7) :
    startGame w value colours =
      ({ gm := { buttons := freshButtons colours v.toNat, clickCount := 0, n := v,
                 pauseTimeout := some w.nextId,
                 scrambleInterval := (resetGame w).gm.scrambleInterval },
         timers := (resetGame w).timers ++ [(w.nextId, Timer.timeout (v * 1000))],
         nextId := w.nextId + 1 }, []) := by
  have hv : ¬ (v < 3 ∨ v > 7) := by omega
  simp only [startGame, h, hv, if_false, World.arm, createButtons, freshButtons]
  simp only [resetGame]
  split_ifs <;> simp

theorem freshButtons_length (colours : Nat → Nat) (n : Nat) :
    (freshButtons colours n).length = n := by
  simp [freshButtons]

theorem freshButtons_order (colours : Nat → Nat) (n : Nat) :
    (freshButtons colours n).map Button.order = List.range n := by
  simp [freshButtons, Button.create, Button.setLabel, Button.setLocation, Function.comp_def]

theorem freshButtons_mem (colours : Nat → Nat) (n : Nat) (b : Button)
    (hb : b ∈ freshButtons colours n) :
    b.textContent = toString (b.order + 1) ∧ b.onclick = false ∧ b.order < n := by
  simp only [freshButtons, List.mem_map, List.mem_range] at hb
  obtain ⟨i, hi, rfl⟩ := hb
  simp [Button.create, Button.setLabel, Button.setLocation, hi]

theorem clearTimer_nil (h : Option Nat) : clearTimer h [] = [] := by
  cases h <;> simp [clearTimer]

theorem clearTimer_single_self (id : Nat) (t : Timer) :
    clearTimer (some id) [(id, t)] = [] := by
  simp [clearTimer]

theorem clearTimer_single (h : Option Nat) (id : Nat) (t : Timer) :
    clearTimer h [(id, t)] = [] ∨ clearTimer h [(id, t)] = [(id, t)] := by
  cases h with
  | none => simp [clearTimer]
  | some k =>
    by_cases hk : id = k
    · left; simp [clearTimer, hk]
    · right; simp [clearTimer, hk]

theorem moveEach_length (L : Layout) (draws : Nat → ℚ × ℚ) (i : Nat) (bs : List Button) :
    (moveEach L draws i bs).length = bs.length := by
  induction bs generalizing i with
  | nil => simp [moveEach]
  | cons b bs ih => simp [moveEach, ih]

/-- Moving buttons changes no field that `f` reads, as long as `f` ignores the
position. -/
theorem moveEach_map {α : Type} (f : Button → α)
    (hf : ∀ (b : Button) (t l : Int), f (b.setLocation t l) = f b)
    (L : Layout) (draws : Nat → ℚ × ℚ) (i : Nat) (bs : List Button) :
    (moveEach L draws i bs).map f = bs.map f := by
  induction bs generalizing i with
  | nil => simp [moveEach]
  | cons b bs ih => simp [moveEach, ih, Button.moveRandomly, hf]

theorem moveEach_mem (L : Layout) (draws : Nat → ℚ × ℚ) (i : Nat) (bs : List Button)
    (b : Button) (hb : b ∈ moveEach L draws i bs) :
    ∃ b0 ∈ bs, b.order = b0.order ∧ b.textContent = b0.textContent ∧
      b.onclick = b0.onclick ∧ b.colour = b0.colour := by
  induction bs generalizing i with
  | nil => simp [moveEach] at hb
  | cons c cs ih =>
    simp only [moveEach, List.mem_cons] at hb
    rcases hb with rfl | hb
    · exact ⟨c, by simp, by simp [Button.moveRandomly, Button.setLocation]⟩
    · obtain ⟨b0, h0, h⟩ := ih (i + 1) hb
      exact ⟨b0, by simp [h0], h⟩

/-! ## Timer firing on a table holding one timer -/

theorem fire_not_pending (w : World) (id : Nat) (L : Layout) (draws : Nat → ℚ × ℚ)
    (h : w.timers.lookup id = none) : fire w id L draws = w := by
  simp [fire, h]

theorem fire_nil (w : World) (id : Nat) (L : Layout) (draws : Nat → ℚ × ℚ)
    (h : w.timers = []) : fire w id L draws = w := by
  apply fire_not_pending; simp [h]

theorem fire_single_other (w : World) (id id0 : Nat) (t : Timer) (L : Layout)
    (draws : Nat → ℚ × ℚ) (h : w.timers = [(id0, t)]) (hne : id ≠ id0) :
    fire w id L draws = w := by
  apply fire_not_pending
  have hb : (id == id0) = false := by simpa using hne
  simp [h, List.lookup, hb]

theorem fire_timeout (w : World) (id0 : Nat) (d : Int) (L : Layout)
    (draws : Nat → ℚ × ℚ) (h : w.timers = [(id0, Timer.timeout d)]) :
    fire w id0 L draws =
      { gm := { w.gm with scrambleInterval := some w.nextId, pauseTimeout := none },
        timers := [(w.nextId, Timer.interval 2000 0)],
        nextId := w.nextId + 1 } := by
  simp [fire, h, List.lookup, scrambleButtons, World.arm, clearTimer]

theorem fire_interval_early (w : World) (id0 : Nat) (d : Int) (c : Nat) (L : Layout)
    (draws : Nat → ℚ × ℚ) (h : w.timers = [(id0, Timer.interval d c)]) (hc : c + 1 < 3) :
    fire w id0 L draws =
      { w with
        gm := { w.gm with buttons := moveEach L draws 0 w.gm.buttons },
        timers := [(id0, Timer.interval d (c + 1))] } := by
  have hc2 : ¬ (c + 1 ≥ 3) := by omega
  simp [fire, h, List.lookup, scrambleTick, hc2]

theorem fire_interval_last (w : World) (id0 : Nat) (d : Int) (c : Nat) (L : Layout)
    (draws : Nat → ℚ × ℚ) (h : w.timers = [(id0, Timer.interval d c)])
    (hs : w.gm.scrambleInterval = some id0) (hc : 3 ≤ c + 1) :
    fire w id0 L draws =
      { w with
        gm := { w.gm with
          buttons := (moveEach L draws 0 w.gm.buttons).map
            (fun b => { b.setLabel "" with onclick := true }),
          scrambleInterval := none },
        timers := [] } := by
  have hc2 : c + 1 ≥ 3 := hc
  simp [fire, h, List.lookup, scrambleTick, hc2, hs, clearTimer, enableUserInteraction]

/-! ## The invariant of reachable worlds -/

theorem resetGame_timers_eq (w : World) :
    (resetGame w).timers =
      (if truthy w.gm.scrambleInterval then
        clearTimer w.gm.scrambleInterval
          (if truthy w.gm.pauseTimeout then clearTimer w.gm.pauseTimeout w.timers
           else w.timers)
       else
        (if truthy w.gm.pauseTimeout then clearTimer w.gm.pauseTimeout w.timers
         else w.timers)) := by
  unfold resetGame
  by_cases hp : truthy w.gm.pauseTimeout = true <;>
    by_cases hs : truthy w.gm.scrambleInterval = true <;> simp [hp, hs]

theorem resetGame_timers (w : World) (h : TimersOk w) : (resetGame w).timers = [] := by
  rw [resetGame_timers_eq]
  rcases h with h | ⟨id, d, hid, ht, hp⟩ | ⟨id, c, hid, _, ht, hs⟩
  · simp only [h, clearTimer_nil]
    split_ifs <;> simp [clearTimer_nil]
  · have htr : truthy (some id) = true := by simp [truthy, hid]
    simp only [hp, htr, if_true, ht, clearTimer_single_self, clearTimer_nil]
    split_ifs <;> simp [clearTimer_nil]
  · have htr : truthy (some id) = true := by simp [truthy, hid]
    simp only [hs, htr, if_true, ht]
    split_ifs with hp
    · rcases clearTimer_single w.gm.pauseTimeout id (Timer.interval 2000 c) with h1 | h1
      · rw [h1]; rfl
      · rw [h1]; exact clearTimer_single_self _ _
    · exact clearTimer_single_self _ _

theorem inv_init : Inv World.init := by
  refine ⟨by simp [World.init], Or.inl rfl, by simp [World.init], ?_, ?_, ?_, ?_, ?_⟩ <;>
    simp [World.init]

theorem inv_startGame (w : World) (value : String) (colours : Nat → Nat) (h : Inv w) :
    Inv (startGame w value colours).1 := by
  cases hp : parseInt value with
  | none => rw [startGame_reject_nan w value colours hp]; exact h
  | some v =>
    by_cases hv : v < 3 ∨ v > 7
    · rw [startGame_reject_range w value colours v hp hv]; exact h
    · have h3 : 3 ≤ v := by omega
      have h7 : v ≤ 7 := by omega
      rw [startGame_accept w value colours v hp h3 h7, resetGame_timers w h.timersOk]
      refine ⟨by simp, ?_, by simp; omega, ?_, ?_, ?_, by simp, ?_⟩
      · exact Or.inr (Or.inl ⟨w.nextId, v * 1000, h.nextId_ne, by simp, rfl⟩)
      · intro b hb
        have := (freshButtons_mem colours v.toNat b hb).2.2
        simp only
        omega
      · intro _
        exact ⟨rfl, fun b hb => (freshButtons_mem colours v.toNat b hb).2.1⟩
      · intro b hb hon
        rw [(freshButtons_mem colours v.toNat b hb).2.1] at hon
        exact absurd hon (by simp)
      · show ((freshButtons colours v.toNat).length : Int) = v
        rw [freshButtons_length]
        omega

theorem inv_fire (w : World) (id : Nat) (L : Layout) (draws : Nat → ℚ × ℚ) (h : Inv w) :
    Inv (fire w id L draws) := by
  rcases h.timersOk with h0 | ⟨id0, d, hid, ht, hp⟩ | ⟨id0, c, hid, hc, ht, hs⟩
  · rw [fire_nil w id L draws h0]; exact h
  · by_cases hne : id = id0
    · subst hne
      have hq := h.quiet (by simp [ht])
      rw [fire_timeout w id d L draws ht]
      refine ⟨by simp, ?_, h.count_le, h.order_lt, fun _ => hq, ?_, by simp, h.len⟩
      · exact Or.inr (Or.inr ⟨w.nextId, 0, h.nextId_ne, by omega, rfl, rfl⟩)
      · intro b hb hon
        rw [hq.2 b hb] at hon
        exact absurd hon (by simp)
    · rw [fire_single_other w id id0 _ L draws ht hne]; exact h
  · by_cases hne : id = id0
    · subst hne
      have hq := h.quiet (by simp [ht])
      by_cases hlast : 3 ≤ c + 1
      · rw [fire_interval_last w id 2000 c L draws ht hs hlast]
        have hlen : (((moveEach L draws 0 w.gm.buttons).map
            (fun b => { b.setLabel "" with onclick := true })).length : Int) = w.gm.n := by
          rw [List.length_map, moveEach_length]; exact h.len
        refine ⟨h.nextId_ne, Or.inl rfl, h.count_le, ?_, by simp, ?_, by simp, hlen⟩
        · intro b hb
          simp only [List.mem_map] at hb
          obtain ⟨b1, hb1, rfl⟩ := hb
          obtain ⟨b0, hb0, ho, _⟩ := moveEach_mem L draws 0 _ b1 hb1
          have := h.order_lt b0 hb0
          simp only [Button.setLabel]
          omega
        · intro b hb _
          simp only [List.mem_map] at hb
          obtain ⟨b1, hb1, rfl⟩ := hb
          obtain ⟨b0, hb0, ho, _⟩ := moveEach_mem L draws 0 _ b1 hb1
          have := h.order_lt b0 hb0
          refine ⟨?_, rfl⟩
          simp only [hq.1]
          omega
      · rw [fire_interval_early w id 2000 c L draws ht (by omega)]
        have hfr : id < w.nextId := by
          have := h.fresh (id, Timer.interval 2000 c) (by simp [ht])
          exact this
        have hlen : ((moveEach L draws 0 w.gm.buttons).length : Int) = w.gm.n := by
          rw [moveEach_length]; exact h.len
        refine ⟨h.nextId_ne, ?_, h.count_le, ?_, ?_, ?_, by simpa using hfr, hlen⟩
        · exact Or.inr (Or.inr ⟨id, c + 1, hid, by omega, rfl, hs⟩)
        · intro b hb
          obtain ⟨b0, hb0, ho, _⟩ := moveEach_mem L draws 0 _ b hb
          have := h.order_lt b0 hb0
          show (b.order : Int) < w.gm.n
          omega
        · intro _
          refine ⟨hq.1, fun b hb => ?_⟩
          obtain ⟨b0, hb0, _, _, hon, _⟩ := moveEach_mem L draws 0 _ b hb
          rw [hon]; exact hq.2 b0 hb0
        · intro b hb hon
          obtain ⟨b0, hb0, _, _, hon0, _⟩ := moveEach_mem L draws 0 _ b hb
          rw [hon0, hq.2 b0 hb0] at hon
          exact absurd hon (by simp)
    · rw [fire_single_other w id id0 _ L draws ht hne]; exact h

/-! ## Clicks -/

theorem click_no_handler (w : World) (i : Nat)
    (h : ∀ b ∈ w.gm.buttons, b.onclick = false) : click w i = (w, []) := by
  unfold click
  cases hb : w.gm.buttons[i]? with
  | none => rfl
  | some b => simp [h b (List.getElem?_mem hb)]

theorem clicks_no_handler (w : World) (is : List Nat)
    (h : ∀ b ∈ w.gm.buttons, b.onclick = false) : clicks w is = (w, []) := by
  induction is with
  | nil => rfl
  | cons i is ih => simp [clicks, click_no_handler w i h, ih]

theorem clicks_append (w : World) (l1 l2 : List Nat) :
    clicks w (l1 ++ l2) =
      ((clicks (clicks w l1).1 l2).1, (clicks w l1).2 ++ (clicks (clicks w l1).1 l2).2) := by
  induction l1 generalizing w with
  | nil => simp [clicks]
  | cons i is ih => simp [clicks, ih, List.append_assoc]

theorem disableButtons_mem (w : World) (b : Button) (hb : b ∈ (disableButtons w).gm.buttons) :
    b.onclick = false := by
  simp only [disableButtons, List.mem_map] at hb
  obtain ⟨b0, _, rfl⟩ := hb
  rfl

theorem map_set_same {α : Type} (f : Button → α) (l : List Button) (i : Nat) (b x : Button)
    (hb : l[i]? = some b) (hx : f x = f b) : (l.set i x).map f = l.map f := by
  apply List.ext_getElem?
  intro j
  simp only [List.getElem?_map, List.getElem?_set]
  by_cases hij : i = j
  · subst hij
    have hlt : i < l.length := (List.getElem?_eq_some.mp hb).1
    simp [hlt, hb, hx]
  · simp [hij]

theorem inv_click (w : World) (i : Nat) (h : Inv w) : Inv (click w i).1 := by
  unfold click
  cases hb : w.gm.buttons[i]? with
  | none => exact h
  | some b =>
    by_cases hon : b.onclick = true
    · have hmem : b ∈ w.gm.buttons := List.getElem?_mem hb
      obtain ⟨hlt, htm⟩ := h.live b hmem hon
      simp only [hon, if_true, handleButtonClick]
      by_cases hc : b.order = w.gm.clickCount
      · simp only [hc, if_true]
        have hord : ∀ c ∈ w.gm.buttons.set i
            (b.setLabel (toString (w.gm.clickCount + 1))), (c.order : Int) < w.gm.n := by
          intro c hcm
          rcases List.mem_or_eq_of_mem_set hcm with h1 | h1
          · exact h.order_lt c h1
          · rw [h1]; exact h.order_lt b hmem
        by_cases hn : ((w.gm.clickCount + 1 : Nat) : Int) = w.gm.n
        · simp only [hn, if_true]
          have hlen : ((disableButtons { w with gm := { w.gm with
              buttons := w.gm.buttons.set i (b.setLabel (toString (w.gm.clickCount + 1))),
              clickCount := w.gm.clickCount + 1 } }).gm.buttons.length : Int) = w.gm.n := by
            simp only [disableButtons, List.length_map, List.length_set]; exact h.len
          refine ⟨h.nextId_ne, Or.inl htm, ?_, ?_, ?_, ?_, h.fresh, hlen⟩
          · show ((w.gm.clickCount + 1 : Nat) : Int) ≤ w.gm.n
            omega
          · intro c hcm
            simp only [disableButtons, List.mem_map] at hcm
            obtain ⟨c0, hc0, rfl⟩ := hcm
            exact hord c0 hc0
          · intro hne; exact absurd htm hne
          · intro c hcm hcon
            rw [disableButtons_mem _ c hcm] at hcon
            exact absurd hcon (by simp)
        · simp only [hn, if_false]
          have hlen : (((w.gm.buttons.set i
              (b.setLabel (toString (w.gm.clickCount + 1)))).length : Nat) : Int) = w.gm.n := by
            rw [List.length_set]; exact h.len
          refine ⟨h.nextId_ne, Or.inl htm, ?_, hord, ?_, ?_, h.fresh, hlen⟩
          · show ((w.gm.clickCount + 1 : Nat) : Int) ≤ w.gm.n
            omega
          · intro hne; exact absurd htm hne
          · intro c _ _
            refine ⟨?_, htm⟩
            show ((w.gm.clickCount + 1 : Nat) : Int) < w.gm.n
            omega
      · simp only [hc, if_false]
        have hlen : ((disableButtons (revealAllButtons w)).gm.buttons.length : Int)
            = w.gm.n := by
          simp only [disableButtons, revealAllButtons, List.length_map]; exact h.len
        refine ⟨h.nextId_ne, Or.inl htm, h.count_le, ?_, ?_, ?_, h.fresh, hlen⟩
        · intro c hcm
          simp only [disableButtons, revealAllButtons, List.mem_map] at hcm
          obtain ⟨c0, ⟨c1, hc1, rfl⟩, rfl⟩ := hcm
          exact h.order_lt c1 hc1
        · intro hne; exact absurd htm hne
        · intro c hcm hcon
          rw [disableButtons_mem _ c hcm] at hcon
          exact absurd hcon (by simp)
    · simp only [hon]
      exact h

theorem reachable_inv (w : World) (h : Reachable w) : Inv w := by
  induction h with
  | init => exact inv_init
  | step e _ ih =>
    cases e with
    | go value colours => exact inv_startGame _ value colours ih
    | timer id L draws => exact inv_fire _ id L draws ih
    | click i => exact inv_click _ i ih

theorem AwaitingInput.playing {w : World} {n : Nat} (h : AwaitingInput w n) :
    Playing w n 0 :=
  ⟨h.1, h.2.1, h.2.2.2.1, fun b hb => (h.2.2.2.2 b hb).1⟩

theorem button_at {w : World} {n j : Nat}
    (ho : w.gm.buttons.map Button.order = List.range n) (hj : j < n) :
    ∃ b, w.gm.buttons[j]? = some b ∧ b.order = j := by
  have h1 : (w.gm.buttons.map Button.order)[j]? = some j := by
    rw [ho]; exact List.getElem?_range hj
  rw [List.getElem?_map] at h1
  cases hb : w.gm.buttons[j]? with
  | none => rw [hb] at h1; simp at h1
  | some b =>
    rw [hb] at h1
    exact ⟨b, rfl, by simpa using h1⟩

theorem click_handler (w : World) (i : Nat) (b : Button)
    (hb : w.gm.buttons[i]? = some b) (hon : b.onclick = true) :
    click w i = handleButtonClick w i b := by
  simp [click, hb, hon]

theorem handle_correct_more (w : World) (i : Nat) (b : Button)
    (ho : b.order = w.gm.clickCount)
    (hne : ((w.gm.clickCount + 1 : Nat) : Int) ≠ w.gm.n) :
    handleButtonClick w i b = (afterCorrect w i b, []) := by
  unfold handleButtonClick afterCorrect
  rw [if_pos ho, if_neg hne]

theorem handle_correct_last (w : World) (i : Nat) (b : Button)
    (ho : b.order = w.gm.clickCount)
    (hn : ((w.gm.clickCount + 1 : Nat) : Int) = w.gm.n) :
    handleButtonClick w i b =
      (disableButtons (afterCorrect w i b), [MESSAGES.correctAnswer]) := by
  unfold handleButtonClick afterCorrect
  rw [if_pos ho, if_pos hn]

theorem handle_wrong (w : World) (i : Nat) (b : Button)
    (ho : b.order ≠ w.gm.clickCount) :
    handleButtonClick w i b =
      (disableButtons (revealAllButtons w), [MESSAGES.incorrectAnswer]) := by
  unfold handleButtonClick
  rw [if_neg ho]

theorem afterCorrect_orders (w : World) (i : Nat) (b : Button)
    (hb : w.gm.buttons[i]? = some b) :
    (afterCorrect w i b).gm.buttons.map Button.order = w.gm.buttons.map Button.order :=
  map_set_same Button.order w.gm.buttons i b _ hb rfl

theorem disableButtons_orders (w : World) :
    (disableButtons w).gm.buttons.map Button.order = w.gm.buttons.map Button.order := by
  simp [disableButtons, Function.comp_def]

theorem click_correct {w : World} {n k : Nat} (h : Playing w n k) (hk : k + 1 < n) :
    Playing (click w k).1 n (k + 1) ∧ (click w k).2 = [] := by
  obtain ⟨hn, hc, ho, hon⟩ := h
  obtain ⟨b, hb, hbo⟩ := button_at ho (by omega : k < n)
  have hbon := hon b (List.getElem?_mem hb)
  have hne : ((w.gm.clickCount + 1 : Nat) : Int) ≠ w.gm.n := by
    rw [hn, hc]; omega
  rw [click_handler w k b hb hbon, handle_correct_more w k b (by rw [hbo, hc]) hne]
  refine ⟨⟨hn, ?_, ?_, ?_⟩, rfl⟩
  · show w.gm.clickCount + 1 = k + 1
    rw [hc]
  · show (afterCorrect w k b).gm.buttons.map Button.order = List.range n
    rw [afterCorrect_orders w k b hb, ho]
  · intro c hcm
    rcases List.mem_or_eq_of_mem_set hcm with h1 | h1
    · exact hon c h1
    · rw [h1]; exact hbon

theorem click_last {w : World} {n k : Nat} (h : Playing w n k) (hk : k + 1 = n) :
    (click w k).2 = [MESSAGES.correctAnswer] ∧ Resolved (click w k).1 ∧
    (click w k).1.gm.clickCount = n ∧ (click w k).1.gm.n = (n : Int) ∧
    (click w k).1.gm.buttons.map Button.order = List.range n ∧
    (click w k).1.timers = w.timers := by
  obtain ⟨hn, hc, ho, hon⟩ := h
  obtain ⟨b, hb, hbo⟩ := button_at ho (by omega : k < n)
  have hbon := hon b (List.getElem?_mem hb)
  have hlast : ((w.gm.clickCount + 1 : Nat) : Int) = w.gm.n := by
    rw [hn, hc]; omega
  rw [click_handler w k b hb hbon, handle_correct_last w k b (by rw [hbo, hc]) hlast]
  refine ⟨rfl, fun c hcm => disableButtons_mem _ c hcm, ?_, hn, ?_, rfl⟩
  · show w.gm.clickCount + 1 = n
    rw [hc]; exact hk
  · show (disableButtons (afterCorrect w k b)).gm.buttons.map Button.order = List.range n
    rw [disableButtons_orders, afterCorrect_orders w k b hb, ho]

theorem click_wrong {w : World} {n k j : Nat} (h : Playing w n k) (hj : j < n)
    (hjk : j ≠ k) :
    click w j = (disableButtons (revealAllButtons w), [MESSAGES.incorrectAnswer]) := by
  obtain ⟨_, hc, ho, hon⟩ := h
  obtain ⟨b, hb, hbo⟩ := button_at ho hj
  have hbon := hon b (List.getElem?_mem hb)
  rw [click_handler w j b hb hbon, handle_wrong w j b (by rw [hbo, hc]; exact hjk)]

theorem clicks_run_playing {w : World} {n : Nat} (h : Playing w n 0) (k : Nat) (hk : k < n) :
    Playing (clicks w (List.range k)).1 n k ∧ (clicks w (List.range k)).2 = [] := by
  induction k with
  | zero => exact ⟨h, rfl⟩
  | succ k ih =>
    obtain ⟨hp, hout⟩ := ih (by omega)
    obtain ⟨hp2, hout2⟩ := click_correct hp hk
    rw [List.range_succ, clicks_append]
    simp only [clicks, List.append_nil, hout, hout2]
    exact ⟨hp2, trivial⟩

theorem clicks_all {w : World} {n : Nat} (h : Playing w n 0) (hn : 0 < n) :
    (clicks w (List.range n)).2 = [MESSAGES.correctAnswer] ∧
    Resolved (clicks w (List.range n)).1 ∧
    (clicks w (List.range n)).1.gm.clickCount = n ∧
    (clicks w (List.range n)).1.gm.n = (n : Int) ∧
    (clicks w (List.range n)).1.gm.buttons.map Button.order = List.range n := by
  obtain ⟨m, rfl⟩ : ∃ m, n = m + 1 := ⟨n - 1, by omega⟩
  obtain ⟨hp, hout⟩ := clicks_run_playing h m (by omega)
  obtain ⟨h1, h2, h3, h4, h5, _⟩ := click_last hp rfl
  rw [List.range_succ] at h5 ⊢
  rw [clicks_append] at *
  simp only [clicks, List.append_nil, hout, h1]
  exact ⟨rfl, h2, h3, h4, h5⟩

/-! ## The scramble phase -/

theorem scrambling_tick_early {w : World} {n id t : Nat} (h : Scrambling w n id t)
    (ht : t + 1 < 3) (L : Layout) (draws : Nat → ℚ × ℚ) :
    Scrambling (fire w id L draws) n id (t + 1) := by
  obtain ⟨hn, hc, htm, hs, ho, hb⟩ := h
  rw [fire_interval_early w id 2000 t L draws htm ht]
  refine ⟨hn, hc, rfl, hs, ?_, ?_⟩
  · show (moveEach L draws 0 w.gm.buttons).map Button.order = List.range n
    rw [moveEach_map Button.order (fun _ _ _ => rfl), ho]
  · intro b hbm
    obtain ⟨b0, hb0, h1, h2, h3, _⟩ := moveEach_mem L draws 0 _ b hbm
    rw [h1, h2, h3]
    exact hb b0 hb0

theorem scrambling_tick_last {w : World} {n id t : Nat} (h : Scrambling w n id t)
    (ht : 3 ≤ t + 1) (L : Layout) (draws : Nat → ℚ × ℚ) :
    AwaitingInput (fire w id L draws) n ∧ (fire w id L draws).gm.scrambleInterval = none := by
  obtain ⟨hn, hc, htm, hs, ho, _⟩ := h
  rw [fire_interval_last w id 2000 t L draws htm hs ht]
  refine ⟨⟨hn, hc, rfl, ?_, ?_⟩, rfl⟩
  · show ((moveEach L draws 0 w.gm.buttons).map _).map Button.order = List.range n
    rw [List.map_map]
    have : (Button.order ∘ fun b : Button => { b.setLabel "" with onclick := true })
        = Button.order := rfl
    rw [this, moveEach_map Button.order (fun _ _ _ => rfl), ho]
  · intro b hbm
    simp only [List.mem_map] at hbm
    obtain ⟨b1, _, rfl⟩ := hbm
    exact ⟨rfl, rfl⟩

theorem ticks_scrambling {w : World} {n id : Nat} (h : Scrambling w n id 0)
    (L : Nat → Layout) (draws : Nat → Nat → ℚ × ℚ) (t : Nat) (ht : t < 3) :
    Scrambling (ticks w id L draws t) n id t := by
  induction t with
  | zero => exact h
  | succ t ih => exact scrambling_tick_early (ih (by omega)) (by omega) (L t) (draws t)

theorem ticks_three {w : World} {n id : Nat} (h : Scrambling w n id 0)
    (L : Nat → Layout) (draws : Nat → Nat → ℚ × ℚ) :
    AwaitingInput (ticks w id L draws 3) n ∧
    (ticks w id L draws 3).gm.scrambleInterval = none :=
  scrambling_tick_last (ticks_scrambling h L draws 2 (by omega)) (by omega) (L 2) (draws 2)

/-- After an accepted `startGame` in a world whose timers are in order, the
table holds exactly the new delay. -/
theorem startGame_accept_timers (w : World) (hw : TimersOk w) (value : String)
    (colours : Nat → Nat) (v : Int) (h : parseInt value = some v) (h3 : 3 ≤ v) (h7 : v ≤ 7) :
    (startGame w value colours).1.timers = [(w.nextId, Timer.timeout (v * 1000))] := by
  rw [startGame_accept w value colours v h h3 h7, resetGame_timers w hw]
  rfl

/-- The world after an accepted `startGame` and the firing of its delay. -/
theorem delay_fires (w : World) (hw : TimersOk w) (value : String) (colours : Nat → Nat)
    (n : Nat) (h : parseInt value = some (n : Int)) (h3 : 3 ≤ n) (h7 : n ≤ 7)
    (L : Layout) (draws : Nat → ℚ × ℚ) :
    Scrambling (fire (startGame w value colours).1 w.nextId L draws) n (w.nextId + 1) 0 := by
  have htm := startGame_accept_timers w hw value colours n h (by omega) (by omega)
  have hnext : (startGame w value colours).1.nextId = w.nextId + 1 := by
    rw [startGame_accept w value colours n h (by omega) (by omega)]
  have hgm : (startGame w value colours).1.gm.n = n ∧
      (startGame w value colours).1.gm.clickCount = 0 ∧
      (startGame w value colours).1.gm.buttons = freshButtons colours n := by
    rw [startGame_accept w value colours n h (by omega) (by omega)]
    simp
  rw [fire_timeout _ w.nextId _ L draws htm, hnext]
  refine ⟨hgm.1, hgm.2.1, rfl, rfl, ?_, ?_⟩
  · show (startGame w value colours).1.gm.buttons.map Button.order = List.range n
    rw [hgm.2.2, freshButtons_order]
  · intro b hb
    have hb2 : b ∈ freshButtons colours n := by
      rw [← hgm.2.2]; exact hb
    have := freshButtons_mem colours n b hb2
    exact ⟨this.2.1, this.1⟩

theorem timersOk_init : TimersOk World.init := Or.inl rfl

theorem sampleAwaiting_awaiting : AwaitingInput sampleAwaiting 3 := by
  have hs := delay_fires World.init timersOk_init "3" (fun _ => 0) 3 (by decide)
    (by decide) (by decide) sampleLayout (fun _ => (0, 0))
  unfold sampleAwaiting scrambleRun
  exact (ticks_three hs (fun _ => sampleLayout) (fun _ _ => (0, 0))).1

theorem reachable_ticks (w : World) (id : Nat) (L : Nat → Layout)
    (draws : Nat → Nat → ℚ × ℚ) (t : Nat) (h : Reachable w) :
    Reachable (ticks w id L draws t) := by
  induction t with
  | zero => exact h
  | succ t ih => exact Reachable.step (Event.timer id (L t) (draws t)) ih

theorem reachable_scrambleRun (w : World) (value : String) (colours : Nat → Nat)
    (L0 : Layout) (d0 : Nat → ℚ × ℚ) (L : Nat → Layout) (draws : Nat → Nat → ℚ × ℚ)
    (t : Nat) (h : Reachable w) :
    Reachable (scrambleRun w value colours L0 d0 L draws t) := by
  unfold scrambleRun
  apply reachable_ticks
  exact Reachable.step (Event.timer w.nextId L0 d0) (Reachable.step (Event.go value colours) h)

theorem sampleScrambling_reachable : Reachable sampleScrambling :=
  reachable_scrambleRun World.init "4" (fun _ => 0) sampleLayout (fun _ => (0, 0))
    (fun _ => sampleLayout) (fun _ _ => (0, 0)) 1 Reachable.init

theorem sampleScrambling_timers :
    sampleScrambling.timers = [(2, Timer.interval 2000 1)] := by
  have hs := delay_fires World.init timersOk_init "4" (fun _ => 0) 4 (by decide)
    (by decide) (by decide) sampleLayout (fun _ => (0, 0))
  have h1 := ticks_scrambling hs (fun _ => sampleLayout) (fun _ _ => (0, 0)) 1 (by decide)
  unfold sampleScrambling scrambleRun
  exact h1.2.2.1

theorem sampleAwaiting_length : sampleAwaiting.gm.buttons.length = 3 := by
  have := congrArg List.length sampleAwaiting_awaiting.2.2.2.1
  simpa using this

/-! ## Properties of the specification -/

/-- C1: for every count `n` with `3 ≤ n ≤ 7` read from the count field and every
prior world, `startGame` leaves exactly `n` buttons, in ascending order with
order values `0 .. n-1`, each labelled with its order plus one, and the click
counter at 0. -/
theorem startGame_creates_tokens (w : World) (value : String) (colours : Nat → Nat) (n : Nat)
    (hparse : parseInt value = some (n : Int)) (h3 : 3 ≤ n) (h7 : n ≤ 7) :
    (startGame w value colours).1.gm.buttons.length = n ∧
    (startGame w value colours).1.gm.buttons.map Button.order = List.range n ∧
    (∀ b ∈ (startGame w value colours).1.gm.buttons,
      b.textContent = toString (b.order + 1)) ∧
    (startGame w value colours).1.gm.clickCount = 0 := by
  rw [startGame_accept w value colours n hparse (by omega) (by omega)]
  refine ⟨?_, ?_, ?_, rfl⟩
  · simp [freshButtons_length]
  · simp [freshButtons_order]
  · intro b hb
    exact (freshButtons_mem colours n b (by simpa using hb)).1

theorem startGame_creates_tokens_witness :
    parseInt "5" = some ((5 : Nat) : Int) ∧
    (startGame sampleAwaiting "5" (fun _ => 0)).1.gm.buttons.map Button.order
      = List.range 5 :=
  ⟨by decide,
   (startGame_creates_tokens sampleAwaiting "5" (fun _ => 0) 5 (by decide) (by decide)
      (by decide)).2.1⟩

/-- C2, as stated, fails: mid-round, with three buttons waiting for clicks and
`7.5` in the count field (a count outside `[3, 7]`), `startGame` shows no
warning, replaces the three buttons by seven and arms a delay of 7 seconds. -/
theorem startGame_out_of_range_text_starts_round :
    sampleAwaiting.gm.buttons.length = 3 ∧ sampleAwaiting.timers = [] ∧
    (startGame sampleAwaiting "7.5" (fun _ => 0)).2 = [] ∧
    (startGame sampleAwaiting "7.5" (fun _ => 0)).1.gm.buttons.length = 7 ∧
    (startGame sampleAwaiting "7.5" (fun _ => 0)).1.timers
      = [(sampleAwaiting.nextId, Timer.timeout 7000)] ∧
    startGame sampleAwaiting "7.5" (fun _ => 0)
      ≠ (sampleAwaiting, [MESSAGES.invalidInput]) := by
  have hacc := startGame_accept sampleAwaiting "7.5" (fun _ => 0) 7 (by decide)
    (by decide) (by decide)
  have hout : (startGame sampleAwaiting "7.5" (fun _ => 0)).2 = [] := by rw [hacc]
  have hlen : (startGame sampleAwaiting "7.5" (fun _ => 0)).1.gm.buttons.length = 7 := by
    rw [hacc]
    simp [freshButtons_length]
  have htm := startGame_accept_timers sampleAwaiting (Or.inl sampleAwaiting_awaiting.2.2.1)
    "7.5" (fun _ => 0) 7 (by decide) (by decide) (by decide)
  refine ⟨sampleAwaiting_length, sampleAwaiting_awaiting.2.2.1, hout, hlen, htm, ?_⟩
  intro h
  rw [h] at hout
  exact absurd hout (by decide)

/-- C2, amended: in every world, when the count that `parseInt` reads from the
text of the count field (its leading integer, what follows being ignored) is
`NaN` or lies outside `[3, 7]`, `startGame` shows the invalid-count warning and
returns the world unchanged: buttons, `n`, click counter, labels, click handlers
and pending timers are all as before. -/
theorem startGame_invalid_no_change (w : World) (value : String) (colours : Nat → Nat)
    (h : parseInt value = none ∨ ∃ v : Int, parseInt value = some v ∧ (v < 3 ∨ 7 < v)) :
    startGame w value colours = (w, [MESSAGES.invalidInput]) := by
  rcases h with h | ⟨v, hv, hr⟩
  · exact startGame_reject_nan w value colours h
  · exact startGame_reject_range w value colours v hv (by omega)

theorem startGame_invalid_no_change_witness :
    parseInt "eight" = none ∧
    startGame sampleAwaiting "eight" (fun _ => 0) = (sampleAwaiting, [MESSAGES.invalidInput]) :=
  ⟨by decide, startGame_invalid_no_change sampleAwaiting "eight" (fun _ => 0)
    (Or.inl (by decide))⟩

/-- C3, as stated, fails: with `3.5` in the count field of a fresh page,
`startGame` shows no warning, creates three buttons and arms the delay. -/
theorem startGame_fractional_starts_round :
    (startGame World.init "3.5" (fun _ => 0)).2 = [] ∧
    (startGame World.init "3.5" (fun _ => 0)).1.gm.buttons.length = 3 ∧
    (startGame World.init "3.5" (fun _ => 0)).1.timers = [(1, Timer.timeout 3000)] := by
  rw [startGame_accept World.init "3.5" (fun _ => 0) 3 (by decide) (by decide) (by decide),
    resetGame_timers World.init timersOk_init]
  refine ⟨rfl, ?_, rfl⟩
  simp [freshButtons_length]

/-- C3, amended: from a fresh page, `startGame` starts a round (buttons exist,
the delay is pending) exactly when `parseInt` of the count field, which reads
the leading integer of the text and ignores what follows it, yields a number in
`[3, 7]`; it then creates that many buttons, arms a delay of that many seconds
and shows nothing.  In every other case it shows the invalid-count warning and
the page stays as it was, with no button. -/
theorem startGame_idle_iff (value : String) (colours : Nat → Nat) :
    (accepts value = true ↔
      ((startGame World.init value colours).1.gm.buttons ≠ [] ∧
       ∃ d, (startGame World.init value colours).1.timers = [(1, Timer.timeout d)])) ∧
    (∀ v : Int, parseInt value = some v → 3 ≤ v → v ≤ 7 →
      (startGame World.init value colours).1.gm.buttons.length = v.toNat ∧
      (startGame World.init value colours).1.timers = [(1, Timer.timeout (v * 1000))] ∧
      (startGame World.init value colours).2 = []) ∧
    (accepts value = false →
      startGame World.init value colours = (World.init, [MESSAGES.invalidInput])) := by
  have hacc : ∀ v : Int, parseInt value = some v → 3 ≤ v → v ≤ 7 →
      (startGame World.init value colours).1.gm.buttons.length = v.toNat ∧
      (startGame World.init value colours).1.timers = [(1, Timer.timeout (v * 1000))] ∧
      (startGame World.init value colours).2 = [] := by
    intro v hv h3 h7
    rw [startGame_accept World.init value colours v hv h3 h7,
      resetGame_timers World.init timersOk_init]
    refine ⟨?_, rfl, rfl⟩
    simp [freshButtons_length]
  have hrej : accepts value = false →
      startGame World.init value colours = (World.init, [MESSAGES.invalidInput]) := by
    intro hna
    cases hp : parseInt value with
    | none => exact startGame_reject_nan _ value colours hp
    | some v =>
      apply startGame_reject_range _ value colours v hp
      simp only [accepts, hp, decide_eq_false_iff_not] at hna
      omega
  refine ⟨⟨?_, ?_⟩, hacc, hrej⟩
  · intro ha
    cases hp : parseInt value with
    | none => simp [accepts, hp] at ha
    | some v =>
      simp only [accepts, hp, decide_eq_true_eq] at ha
      obtain ⟨hl, ht, _⟩ := hacc v hp ha.1 ha.2
      refine ⟨?_, v * 1000, ht⟩
      intro hnil
      rw [hnil] at hl
      simp at hl
      omega
  · rintro ⟨hb, _⟩
    by_contra hna
    rw [hrej (by simpa using hna)] at hb
    exact hb rfl

theorem startGame_idle_iff_witness :
    accepts "3.5" = true ∧ accepts "2.9" = false ∧
    (startGame World.init "2.9" (fun _ => 0) = (World.init, [MESSAGES.invalidInput])) :=
  ⟨by decide, by decide, (startGame_idle_iff "2.9" (fun _ => 0)).2.2 (by decide)⟩

/-- C4: for `3 ≤ n ≤ 7`, from the start of the input phase of a round of `n`
buttons, clicking the buttons of order `0, 1, ..` in turn leaves the click
counter at `k` after `k` clicks with no alert while `k < n`; the `n` clicks
together show exactly the success message and leave every button without a
click handler; any further clicks change nothing and show nothing. -/
theorem clicks_in_order_succeed (w : World) (n : Nat) (h3 : 3 ≤ n) (_h7 : n ≤ 7)
    (h : AwaitingInput w n) :
    (∀ k, k < n → (clicks w (List.range k)).1.gm.clickCount = k ∧
      (clicks w (List.range k)).2 = []) ∧
    (clicks w (List.range n)).2 = [MESSAGES.correctAnswer] ∧
    (clicks w (List.range n)).1.gm.clickCount = n ∧
    (∀ b ∈ (clicks w (List.range n)).1.gm.buttons, b.onclick = false) ∧
    (∀ js, clicks (clicks w (List.range n)).1 js = ((clicks w (List.range n)).1, [])) := by
  obtain ⟨h1, h2, hc, _, _⟩ := clicks_all h.playing (by omega : 0 < n)
  refine ⟨fun k hk => ?_, h1, hc, h2, fun js => clicks_no_handler _ js h2⟩
  obtain ⟨hp, hout⟩ := clicks_run_playing h.playing k hk
  exact ⟨hp.2.1, hout⟩

theorem clicks_in_order_succeed_witness :
    AwaitingInput sampleAwaiting 3 ∧
    (clicks sampleAwaiting (List.range 3)).2 = [MESSAGES.correctAnswer] :=
  ⟨sampleAwaiting_awaiting,
   (clicks_in_order_succeed sampleAwaiting 3 (by decide) (by decide)
      sampleAwaiting_awaiting).2.1⟩

/-- C5: for `3 ≤ n ≤ 7`, after `k < n` correct clicks in the input phase,
a click on a button whose order `j` differs from `k` shows the failure message
and not the success message, sets every label to order plus one, removes every
click handler, and leaves the click counter at `k`. -/
theorem wrong_click_fails (w : World) (n k j : Nat) (_h3 : 3 ≤ n) (_h7 : n ≤ 7)
    (h : AwaitingInput w n) (hk : k < n) (hj : j < n) (hjk : j ≠ k) :
    (click (clicks w (List.range k)).1 j).2 = [MESSAGES.incorrectAnswer] ∧
    MESSAGES.correctAnswer ∉ (click (clicks w (List.range k)).1 j).2 ∧
    (click (clicks w (List.range k)).1 j).1.gm.buttons.map Button.order = List.range n ∧
    (∀ b ∈ (click (clicks w (List.range k)).1 j).1.gm.buttons,
      b.textContent = toString (b.order + 1) ∧ b.onclick = false) ∧
    (click (clicks w (List.range k)).1 j).1.gm.clickCount = k := by
  obtain ⟨hp, _⟩ := clicks_run_playing h.playing k hk
  rw [click_wrong hp hj hjk]
  have hmsg : MESSAGES.correctAnswer ∉ [MESSAGES.incorrectAnswer] := by decide
  refine ⟨rfl, hmsg, ?_, ?_, hp.2.1⟩
  · show (disableButtons (revealAllButtons _)).gm.buttons.map Button.order = List.range n
    rw [disableButtons_orders, ← hp.2.2.1]
    simp [revealAllButtons, Button.setLabel, Function.comp_def]
  · intro b hb
    simp only [disableButtons, revealAllButtons, List.mem_map] at hb
    obtain ⟨b1, ⟨b0, _, rfl⟩, rfl⟩ := hb
    exact ⟨rfl, rfl⟩

theorem wrong_click_fails_witness :
    AwaitingInput sampleAwaiting 3 ∧
    (click (clicks sampleAwaiting (List.range 1)).1 2).2 = [MESSAGES.incorrectAnswer] :=
  ⟨sampleAwaiting_awaiting,
   (wrong_click_fails sampleAwaiting 3 1 2 (by decide) (by decide)
      sampleAwaiting_awaiting (by decide) (by decide) (by decide)).1⟩

/-- C6: for `3 ≤ n ≤ 7` and a reachable prior world, `startGame` arms one delay;
once it has fired, after exactly 3 relocation ticks the controller is at the
start of the input phase (no timer pending, so no fourth tick can fire; every
label blank; every button with its handler; click counter 0), whereas after
0, 1 or 2 ticks the repeating timer is still pending, every label still shows
order plus one and no button has a handler. -/
theorem three_ticks_enable_input (w : World) (hw : Reachable w) (value : String)
    (colours : Nat → Nat) (n : Nat) (hparse : parseInt value = some (n : Int))
    (h3 : 3 ≤ n) (h7 : n ≤ 7) (L0 : Layout) (d0 : Nat → ℚ × ℚ) (L : Nat → Layout)
    (draws : Nat → Nat → ℚ × ℚ) :
    (startGame w value colours).1.timers = [(w.nextId, Timer.timeout ((n : Int) * 1000))] ∧
    AwaitingInput (scrambleRun w value colours L0 d0 L draws 3) n ∧
    (scrambleRun w value colours L0 d0 L draws 3).gm.scrambleInterval = none ∧
    (∀ id Lx dx, fire (scrambleRun w value colours L0 d0 L draws 3) id Lx dx
      = scrambleRun w value colours L0 d0 L draws 3) ∧
    (∀ t, t < 3 →
      (scrambleRun w value colours L0 d0 L draws t).timers
        = [(w.nextId + 1, Timer.interval 2000 t)] ∧
      (scrambleRun w value colours L0 d0 L draws t).gm.scrambleInterval
        = some (w.nextId + 1) ∧
      (scrambleRun w value colours L0 d0 L draws t).gm.buttons.map Button.order
        = List.range n ∧
      ∀ b ∈ (scrambleRun w value colours L0 d0 L draws t).gm.buttons,
        b.textContent = toString (b.order + 1) ∧ b.onclick = false) := by
  have hok := (reachable_inv w hw).timersOk
  have hs := delay_fires w hok value colours n hparse h3 h7 L0 d0
  obtain ⟨ha, hnone⟩ := ticks_three hs L draws
  refine ⟨startGame_accept_timers w hok value colours n hparse (by omega) (by omega),
    ha, hnone, fun id Lx dx => fire_nil _ id Lx dx ha.2.2.1, fun t ht => ?_⟩
  obtain ⟨_, _, htm, hsi, ho, hb⟩ := ticks_scrambling hs L draws t ht
  exact ⟨htm, hsi, ho, fun b hbm => ⟨(hb b hbm).2, (hb b hbm).1⟩⟩

theorem three_ticks_enable_input_witness :
    Reachable World.init ∧ parseInt "4" = some ((4 : Nat) : Int) ∧
    AwaitingInput (scrambleRun World.init "4" (fun _ => 0) sampleLayout (fun _ => (0, 0))
      (fun _ => sampleLayout) (fun _ _ => (0, 0)) 3) 4 :=
  ⟨Reachable.init, by decide,
   (three_ticks_enable_input World.init Reachable.init "4" (fun _ => 0) 4 (by decide)
      (by decide) (by decide) sampleLayout (fun _ => (0, 0)) (fun _ => sampleLayout)
      (fun _ _ => (0, 0))).2.1⟩

/-- C7: in every reachable world, right after `startGame` with a count `n` in
`[3, 7]` the pending timers are exactly one delay of `n` seconds and no
repeating timer; every timer that was pending before is gone, and firing any
handle other than the new delay does nothing; and a reachable world never has
more than one delay or more than one repeating timer pending. -/
theorem startGame_cancels_old_timers (w : World) (hw : Reachable w) (value : String)
    (colours : Nat → Nat) (n : Nat) (hparse : parseInt value = some (n : Int))
    (h3 : 3 ≤ n) (h7 : n ≤ 7) :
    (startGame w value colours).1.timers = [(w.nextId, Timer.timeout ((n : Int) * 1000))] ∧
    (∀ t ∈ w.timers, t ∉ (startGame w value colours).1.timers ∧
      (startGame w value colours).1.timers.lookup t.1 = none) ∧
    (∀ id L d, id ≠ w.nextId →
      fire (startGame w value colours).1 id L d = (startGame w value colours).1) ∧
    w.timers.countP (fun t => t.2.isTimeout) ≤ 1 ∧
    w.timers.countP (fun t => t.2.isInterval) ≤ 1 := by
  have hinv := reachable_inv w hw
  have htm := startGame_accept_timers w hinv.timersOk value colours n hparse
    (by omega) (by omega)
  refine ⟨htm, ?_, ?_, ?_⟩
  · intro t ht
    have hlt := hinv.fresh t ht
    have hne : t.1 ≠ w.nextId := by omega
    have hb : (t.1 == w.nextId) = false := by simpa using hne
    rw [htm]
    constructor
    · intro hmem
      simp only [List.mem_singleton] at hmem
      rw [hmem] at hne
      exact hne rfl
    · simp [List.lookup, hb]
  · intro id L d hne
    exact fire_single_other _ id w.nextId _ L d htm hne
  · rcases hinv.timersOk with h0 | ⟨id, d, _, ht, _⟩ | ⟨id, c, _, _, ht, _⟩
    · simp [h0]
    · simp [ht, Timer.isTimeout, Timer.isInterval]
    · simp [ht, Timer.isTimeout, Timer.isInterval]

theorem startGame_cancels_old_timers_witness :
    Reachable sampleScrambling ∧
    sampleScrambling.timers = [(2, Timer.interval 2000 1)] ∧
    parseInt "7" = some ((7 : Nat) : Int) ∧
    (startGame sampleScrambling "7" (fun _ => 0)).1.timers
      = [(sampleScrambling.nextId, Timer.timeout (((7 : Nat) : Int) * 1000))] ∧
    (2, Timer.interval 2000 1) ∉ (startGame sampleScrambling "7" (fun _ => 0)).1.timers ∧
    (startGame sampleScrambling "7" (fun _ => 0)).1.timers.lookup 2 = none ∧
    (∀ id L d, id ≠ sampleScrambling.nextId →
      fire (startGame sampleScrambling "7" (fun _ => 0)).1 id L d
        = (startGame sampleScrambling "7" (fun _ => 0)).1) :=
  ⟨sampleScrambling_reachable, sampleScrambling_timers, by decide,
   (startGame_cancels_old_timers sampleScrambling sampleScrambling_reachable "7"
      (fun _ => 0) 7 (by decide) (by decide) (by decide)).1,
   ((startGame_cancels_old_timers sampleScrambling sampleScrambling_reachable "7"
      (fun _ => 0) 7 (by decide) (by decide) (by decide)).2.1
      (2, Timer.interval 2000 1) (by rw [sampleScrambling_timers]; simp)).1,
   ((startGame_cancels_old_timers sampleScrambling sampleScrambling_reachable "7"
      (fun _ => 0) 7 (by decide) (by decide) (by decide)).2.1
      (2, Timer.interval 2000 1) (by rw [sampleScrambling_timers]; simp)).2,
   (startGame_cancels_old_timers sampleScrambling sampleScrambling_reachable "7"
      (fun _ => 0) 7 (by decide) (by decide) (by decide)).2.2.1⟩

/-- C8: for a container of size `W × H` and a button of size `w × h` with
`0 ≤ w ≤ W` and `0 ≤ h ≤ H`, and draws `r1`, `r2` in `[0, 1)`, `moveRandomly`
sets a position `(top, left)` with `0 ≤ top`, `top + h ≤ H`, `0 ≤ left` and
`left + w ≤ W`.  Of the rounding of products only this is used: it is monotone
and leaves `0`, `W - w` and `H - h` as they are (true of exact arithmetic and of
round-to-nearest doubles for sizes below `2^53`). -/
theorem moveRandomly_inside (L : Layout) (r1 r2 : ℚ) (b : Button)
    (_hw0 : 0 ≤ L.offsetWidth) (hw : L.offsetWidth ≤ L.clientWidth)
    (_hh0 : 0 ≤ L.offsetHeight) (hh : L.offsetHeight ≤ L.clientHeight)
    (hr1 : 0 ≤ r1 ∧ r1 < 1) (hr2 : 0 ≤ r2 ∧ r2 < 1)
    (hmono : ∀ x y : ℚ, x ≤ y → L.round x ≤ L.round y)
    (hzero : L.round 0 = 0)
    (hW : L.round ((L.clientWidth - L.offsetWidth : Int) : ℚ)
      = ((L.clientWidth - L.offsetWidth : Int) : ℚ))
    (hH : L.round ((L.clientHeight - L.offsetHeight : Int) : ℚ)
      = ((L.clientHeight - L.offsetHeight : Int) : ℚ)) :
    ∃ top left : Int,
      (b.moveRandomly L r1 r2).top = some top ∧ (b.moveRandomly L r1 r2).left = some left ∧
      0 ≤ top ∧ top + L.offsetHeight ≤ L.clientHeight ∧
      0 ≤ left ∧ left + L.offsetWidth ≤ L.clientWidth := by
  have key : ∀ (r : ℚ) (m : Int), 0 ≤ r → r < 1 → 0 ≤ m → L.round (m : ℚ) = (m : ℚ) →
      0 ≤ ⌊L.round (r * (m : ℚ))⌋ ∧ ⌊L.round (r * (m : ℚ))⌋ ≤ m := by
    intro r m h0 h1 hm hfix
    have hmq : (0 : ℚ) ≤ (m : ℚ) := by exact_mod_cast hm
    constructor
    · apply Int.floor_nonneg.mpr
      have := hmono 0 (r * (m : ℚ)) (mul_nonneg h0 hmq)
      rwa [hzero] at this
    · have hle : r * (m : ℚ) ≤ (m : ℚ) := by nlinarith
      have h2 := hmono _ _ hle
      rw [hfix] at h2
      have := Int.floor_mono h2
      rwa [Int.floor_intCast] at this
  obtain ⟨ht0, ht1⟩ := key r1 (L.clientHeight - L.offsetHeight) hr1.1 hr1.2 (by omega) hH
  obtain ⟨hl0, hl1⟩ := key r2 (L.clientWidth - L.offsetWidth) hr2.1 hr2.2 (by omega) hW
  refine ⟨⌊L.round (r1 * ((L.clientHeight - L.offsetHeight : Int) : ℚ))⌋,
    ⌊L.round (r2 * ((L.clientWidth - L.offsetWidth : Int) : ℚ))⌋, rfl, rfl, ht0, ?_, hl0, ?_⟩
  · omega
  · omega

theorem moveRandomly_inside_witness :
    ∃ top left : Int,
      ((Button.create 0 "red").moveRandomly sampleLayout (1 / 2) (3 / 4)).top = some top ∧
      ((Button.create 0 "red").moveRandomly sampleLayout (1 / 2) (3 / 4)).left = some left ∧
      0 ≤ top ∧ top + sampleLayout.offsetHeight ≤ sampleLayout.clientHeight ∧
      0 ≤ left ∧ left + sampleLayout.offsetWidth ≤ sampleLayout.clientWidth :=
  moveRandomly_inside sampleLayout (1 / 2) (3 / 4) (Button.create 0 "red")
    (by decide) (by decide) (by decide) (by decide)
    ⟨by norm_num, by norm_num⟩ ⟨by norm_num, by norm_num⟩
    (fun _ _ h => h) rfl rfl rfl

theorem click_alert_resolved (w : World) (i : Nat) (h : (click w i).2 ≠ []) :
    Resolved (click w i).1 := by
  unfold click at h ⊢
  cases hb : w.gm.buttons[i]? with
  | none => rw [hb] at h; exact absurd rfl h
  | some b =>
    rw [hb] at h
    simp only at h ⊢
    by_cases hon : b.onclick = true
    · rw [if_pos hon] at h ⊢
      by_cases hc : b.order = w.gm.clickCount
      · by_cases hn : ((w.gm.clickCount + 1 : Nat) : Int) = w.gm.n
        · rw [handle_correct_last w i b hc hn]
          exact fun c hcm => disableButtons_mem _ c hcm
        · rw [handle_correct_more w i b hc hn] at h
          exact absurd rfl h
      · rw [handle_wrong w i b hc]
        exact fun c hcm => disableButtons_mem _ c hcm
    · rw [if_neg hon] at h
      exact absurd rfl h

/-- C9: in every reachable world the click counter lies between 0 and the
button count (`n`, which is also the number of buttons); a button carries a click
handler only while no timer is pending and the counter is still below `n`; a
click while a timer is pending changes nothing and shows nothing; and after a
click that showed an alert (the round is resolved) every click changes nothing
and shows nothing. -/
theorem reachable_counter_and_clicks (w : World) (hw : Reachable w) :
    (0 ≤ (w.gm.clickCount : Int) ∧ (w.gm.clickCount : Int) ≤ w.gm.n ∧
      w.gm.clickCount ≤ w.gm.buttons.length) ∧
    (∀ b ∈ w.gm.buttons, b.onclick = true →
      w.timers = [] ∧ (w.gm.clickCount : Int) < w.gm.n) ∧
    (w.timers ≠ [] → ∀ i, click w i = (w, [])) ∧
    (∀ i, (click w i).2 ≠ [] → ∀ j, click (click w i).1 j = ((click w i).1, [])) := by
  have hinv := reachable_inv w hw
  refine ⟨⟨by omega, hinv.count_le, ?_⟩, ?_, ?_, ?_⟩
  · have h1 := hinv.count_le
    have h2 := hinv.len
    omega
  · intro b hb hon
    exact ⟨(hinv.live b hb hon).2, (hinv.live b hb hon).1⟩
  · intro hne i
    exact click_no_handler w i (hinv.quiet hne).2
  · intro i hi j
    exact click_no_handler _ j (click_alert_resolved w i hi)

theorem reachable_counter_and_clicks_witness :
    Reachable (startGame World.init "6" (fun _ => 0)).1 ∧
    ∀ i, click (startGame World.init "6" (fun _ => 0)).1 i
      = ((startGame World.init "6" (fun _ => 0)).1, []) :=
  ⟨Reachable.step (Event.go "6" (fun _ => 0)) Reachable.init,
   (reachable_counter_and_clicks (startGame World.init "6" (fun _ => 0)).1
      (Reachable.step (Event.go "6" (fun _ => 0)) Reachable.init)).2.2.1
      (by
        rw [startGame_accept_timers World.init timersOk_init "6" (fun _ => 0) 6
          (by decide) (by decide) (by decide)]
        simp)⟩

/-- C10 at 5 buttons: the scramble phase of a round of 5 buttons ends with the
third relocation tick, not the fifth.  After two ticks the repeating timer is
still pending with its count at 2; after the third no timer is pending and the
input phase has begun. -/
theorem five_buttons_scramble_three_times :
    (scrambleRun World.init "5" (fun _ => 0) sampleLayout (fun _ => (0, 0))
      (fun _ => sampleLayout) (fun _ _ => (0, 0)) 2).timers
      = [(2, Timer.interval 2000 2)] ∧
    AwaitingInput (scrambleRun World.init "5" (fun _ => 0) sampleLayout (fun _ => (0, 0))
      (fun _ => sampleLayout) (fun _ _ => (0, 0)) 3) 5 ∧
    (scrambleRun World.init "5" (fun _ => 0) sampleLayout (fun _ => (0, 0))
      (fun _ => sampleLayout) (fun _ _ => (0, 0)) 3).timers = [] := by
  have hs := delay_fires World.init timersOk_init "5" (fun _ => 0) 5 (by decide)
    (by decide) (by decide) sampleLayout (fun _ => (0, 0))
  have h2 := ticks_scrambling hs (fun _ => sampleLayout) (fun _ _ => (0, 0)) 2 (by decide)
  have h3 := (ticks_three hs (fun _ => sampleLayout) (fun _ _ => (0, 0))).1
  unfold scrambleRun
  exact ⟨h2.2.2.1, h3, h3.2.2.1⟩

end MemoryGame
